import Mathlib

/-!
# University Student Assistant — verified model of the registration core

Shallow embedding of `src/app.py` (single-file Flask mock API). The claims
under scrutiny concern the capacity-bounded registration engine (course
enrollment `enroll`, event registration `event_register`), hostel booking
(`hostel_book`), leave auto-approval (`leave_apply`) and the audit log
(`audit` / `save_data`).

Modelling conventions:
* Python dicts keyed by strings become association lists
  `List (String × α)`, read with `mget`/`mgetD` and written with `mset`.
  Reads use the same defaults the source uses (`.get(k, default)` /
  `.setdefault(k, [])`), so inserting an empty list with `setdefault`
  and then not touching it is modelled as a no-op: the source reads such
  keys only through defaults, so the identification is observationally
  faithful (and `save_data` is not called on those paths).
* HTTP request bodies: `body.get("field")` becomes `Option String`; the
  Python truthiness test `not x` (true for a missing field and for the
  empty string) becomes `x.getD "" = ""`.
* Timestamps (`now_iso()`) are abstract `Nat` tokens; `uuid` identifiers
  (booking ids, leave ids) are `String` parameters supplied by the caller.
* JSON responses become per-endpoint structures; a key the source never
  emits is an `Option` field that every code path leaves at `none`.
  `abort(400, …)` / `abort(404, …)` become `HResp.err 400` / `.err 404`.
* Audit entries keep the fields the claims mention (`user` = actor,
  `action`, `time`); the opaque uuid `id` and the free-form `details`
  dict are omitted, no claim refers to them.
* Leave dates are modelled as already-parsed day ordinals (`Int`); for
  whole-day ISO dates Python's `(edate - sdate).days` is exactly the
  ordinal difference.
-/

set_option autoImplicit false

namespace UniHelpdesk

/-- A waitlist entry, `{"student_id": …, "requested_at": now_iso()}`
(`src/app.py` lines 193 and 326). -/
structure WEntry where
  student_id : String
  requested_at : Nat
deriving DecidableEq, Repr

/-- A course record (seed data, `src/app.py` lines 94-97); only the fields
the engine reads. `capacity` is read via `course.get("capacity", 0)`. -/
structure Course where
  title : String
  capacity : Nat
deriving DecidableEq, Repr

/-- An event record (seed data, `src/app.py` lines 118-120). -/
structure EventRec where
  title : String
  capacity : Nat
deriving DecidableEq, Repr

/-- A hostel record (seed data, `src/app.py` lines 112-115).
`rooms_available` as `Int`: the source guards with `<= 0` and clamps with
`max(0, …)`, so the type does not itself exclude negative values. -/
structure Hostel where
  name : String
  rooms_total : Int
  rooms_available : Int
deriving DecidableEq, Repr

/-- A hostel booking (`src/app.py` lines 253-255); the `id` field equals
the map key and the `created` timestamp is dropped. -/
structure Booking where
  student_id : String
  hostel_id : String
deriving DecidableEq, Repr

/-- A stored leave request (`src/app.py` lines 297-300), dates as day
ordinals. -/
structure LeaveRec where
  student_id : String
  sdate : Int
  edate : Int
  reason : String
  status : String
deriving DecidableEq, Repr

/-- An audit-log entry (`src/app.py` lines 73-79): `user` is the actor,
`time` the timestamp token; uuid `id` and `details` omitted. -/
structure AuditEntry where
  user : String
  action : String
  time : Nat
deriving DecidableEq, Repr

/-! ## String-keyed maps as association lists -/

/-- Dict lookup: first value stored under `k`, `none` when absent. -/
def mget {α : Type} : List (String × α) → String → Option α
  | [], _ => none
  | (k', v) :: rest, k => if k' = k then some v else mget rest k

/-- Dict lookup with default (`d.get(k, default)` / after
`d.setdefault(k, default)`). -/
def mgetD {α : Type} (m : List (String × α)) (k : String) (d : α) : α :=
  (mget m k).getD d

/-- Dict update `d[k] = v`: replace the first binding of `k`, or append. -/
def mset {α : Type} : List (String × α) → String → α → List (String × α)
  | [], k, v => [(k, v)]
  | (k', v') :: rest, k, v =>
      if k' = k then (k, v) :: rest else (k', v') :: mset rest k v

theorem mget_mset {α : Type} (m : List (String × α)) (k k' : String) (v : α) :
    mget (mset m k v) k' = if k = k' then some v else mget m k' := by
  induction m with
  | nil =>
      by_cases h : k = k' <;> simp [mset, mget, h]
  | cons p rest ih =>
      obtain ⟨a, b⟩ := p
      by_cases hak : a = k
      · subst hak
        by_cases h : a = k' <;> simp [mset, mget, h]
      · by_cases hak' : a = k'
        · subst hak'
          simp [mset, mget, hak, Ne.symm hak]
        · simp [mset, mget, hak, hak', ih]

theorem mgetD_mset {α : Type} (m : List (String × α)) (k k' : String)
    (v d : α) :
    mgetD (mset m k v) k' d = if k = k' then v else mgetD m k' d := by
  by_cases h : k = k' <;> simp [mgetD, mget_mset, h]

theorem ne_of_mget_ne {α : Type} {m₁ m₂ : List (String × α)} (k : String)
    (h : mget m₁ k ≠ mget m₂ k) : m₁ ≠ m₂ := by
  intro he; exact h (he ▸ rfl)

theorem getD_eq_some {o : Option String} (h : o.getD "" ≠ "") :
    o = some (o.getD "") := by
  cases o with
  | none => simp at h
  | some s => rfl

/-! ## The in-memory store -/

/-- The slice of the global `DATA` dict (`src/app.py` lines 47-65) touched
by the registration engine, hostel booking, leave requests and the audit
log. The remaining top-level keys (students, fees, payments, exam
timetables, OTPs, …) are glue the claims never read or write. -/
structure St where
  courses : List (String × Course)
  enrollments : List (String × List String)
  waitlists : List (String × List WEntry)
  events : List (String × EventRec)
  event_registrations : List (String × List String)
  event_waitlists : List (String × List WEntry)
  hostels : List (String × Hostel)
  hostel_bookings : List (String × Booking)
  leave_requests : List (String × LeaveRec)
  audit_logs : List AuditEntry
deriving DecidableEq, Repr

/-- The seed data installed at process start (`src/app.py` lines 87-122)
for the modelled sections. -/
def seedSt : St where
  courses := [("CSE101", ⟨"Intro to Computer Science", 2⟩),
              ("MTH101", ⟨"Calculus I", 1⟩)]
  enrollments := []
  waitlists := []
  events := [("EVT100", ⟨"Freshers Meet", 2⟩)]
  event_registrations := []
  event_waitlists := []
  hostels := [("H1", ⟨"Maple Hostel", 4, 2⟩), ("H2", ⟨"Pine Hostel", 3, 3⟩)]
  hostel_bookings := []
  leave_requests := []
  audit_logs := []

/-- `audit(user, action)` (`src/app.py` lines 72-81): append one entry to
the process-wide log. The `save_data` call inside is pure persistence;
its failure behaviour is modelled separately by `enrollE`. -/
def auditAdd (st : St) (user action : String) (now : Nat) : St :=
  { st with audit_logs := st.audit_logs ++ [⟨user, action, now⟩] }

/-! ## Responses -/

/-- A handler outcome: a JSON body or a Flask `abort(code, …)`. -/
inductive HResp (α : Type) where
  | ok (v : α)
  | err (code : Nat)
deriving DecidableEq, Repr

/-- Body of an `/enroll` response (`src/app.py` lines 184, 189, 192, 196):
always a `status` and the `course` code. No response of the endpoint
carries a waitlist position, hence the always-`none` `position` field. -/
structure EnrollResp where
  status : String
  course : String
  position : Option Nat := none
deriving DecidableEq, Repr

/-- Body of an `/events/register` response (`src/app.py` lines 318, 323,
329): just a `status`; again no position key exists in the source. -/
structure EventResp where
  status : String
  position : Option Nat := none
deriving DecidableEq, Repr

/-- Body of a `/hostel/book` response (`src/app.py` lines 251, 259). -/
structure HostelResp where
  status : String
  booking_id : Option String := none
deriving DecidableEq, Repr

/-- Body of a `/leave/apply` response (`src/app.py` line 303). -/
structure LeaveResp where
  leave_id : String
  status : String
  duration_days : Int
deriving DecidableEq, Repr

/-! ## The handlers -/

/-- `enroll()` (`src/app.py` lines 169-196): course enrollment with
waitlisting.
* missing/empty `student_id` or `course_code` → `abort(400)`;
* unknown course → `abort(404)`;
* already enrolled → `already_enrolled`, no mutation;
* free capacity → append to enrollments, audit `enrolled`;
* full and already waitlisted → `already_waitlisted`, no mutation;
* full otherwise → append `{student_id, now}` to the waitlist, audit
  `waitlisted`. -/
def enroll (st : St) (student_id course_code : Option String) (now : Nat) :
    St × HResp EnrollResp :=
  if student_id.getD "" = "" ∨ course_code.getD "" = "" then (st, .err 400)
  else
    let s := student_id.getD ""
    let c := course_code.getD ""
    match mget st.courses c with
    | none => (st, .err 404)
    | some course =>
      let enr := mgetD st.enrollments c []
      let wl := mgetD st.waitlists c []
      if s ∈ enr then (st, .ok ⟨"already_enrolled", c, none⟩)
      else if enr.length < course.capacity then
        (auditAdd { st with enrollments := mset st.enrollments c (enr ++ [s]) }
            s "enrolled" now,
         .ok ⟨"enrolled", c, none⟩)
      else if wl.any (fun w => w.student_id == s) then
        (st, .ok ⟨"already_waitlisted", c, none⟩)
      else
        (auditAdd { st with waitlists := mset st.waitlists c (wl ++ [⟨s, now⟩]) }
            s "waitlisted" now,
         .ok ⟨"waitlisted", c, none⟩)

/-- `event_register()` (`src/app.py` lines 306-329): event registration
with waitlisting. Unlike `enroll`, the waitlist branch performs no
membership check: an already-waitlisted student is appended again. -/
def event_register (st : St) (student_id event_id : Option String)
    (now : Nat) : St × HResp EventResp :=
  if student_id.getD "" = "" ∨ event_id.getD "" = "" then (st, .err 400)
  else
    let s := student_id.getD ""
    let e := event_id.getD ""
    match mget st.events e with
    | none => (st, .err 404)
    | some ev =>
      let regs := mgetD st.event_registrations e []
      if s ∈ regs then (st, .ok ⟨"already_registered", none⟩)
      else if regs.length < ev.capacity then
        (auditAdd
            { st with event_registrations := mset st.event_registrations e (regs ++ [s]) }
            s "event_registered" now,
         .ok ⟨"registered", none⟩)
      else
        let wl := mgetD st.event_waitlists e []
        (auditAdd
            { st with event_waitlists := mset st.event_waitlists e (wl ++ [⟨s, now⟩]) }
            s "event_waitlisted" now,
         .ok ⟨"waitlisted", none⟩)

/-- `hostel_book()` (`src/app.py` lines 240-259): room booking.
`booking_id` stands for the generated uuid. -/
def hostel_book (st : St) (student_id hostel_id : Option String)
    (booking_id : String) (now : Nat) : St × HResp HostelResp :=
  if student_id.getD "" = "" ∨ hostel_id.getD "" = "" then (st, .err 400)
  else
    let s := student_id.getD ""
    let h := hostel_id.getD ""
    match mget st.hostels h with
    | none => (st, .err 404)
    | some hostel =>
      if hostel.rooms_available ≤ 0 then (st, .ok ⟨"full", none⟩)
      else
        let hostel' := { hostel with rooms_available := max 0 (hostel.rooms_available - 1) }
        (auditAdd
            { st with
              hostel_bookings := mset st.hostel_bookings booking_id ⟨s, h⟩,
              hostels := mset st.hostels h hostel' }
            s "hostel_booked" now,
         .ok ⟨"booked", some booking_id⟩)

/-- The status expression of `leave_apply` (`src/app.py` line 295):
`"approved" if (duration_days <= 3 and reason) else "pending"` — a
non-empty `reason` string is the truthy condition. -/
def leaveStatus (duration_days : Int) (reason : String) : String :=
  if duration_days ≤ 3 ∧ reason ≠ "" then "approved" else "pending"

/-- Modelled from the spec: the parameterized pure decision function
`decide(days, qualifies, threshold)` of §4.1. The source hard-codes
`threshold = 3` and `qualifies = (reason != "")` at its single call site
(`src/app.py` line 295); the threshold-2 / leave-type variant the spec
mentions has no counterpart anywhere in `src/`. -/
def decideLeave (days : Int) (qualifies : Bool) (threshold : Int) : String :=
  if days ≤ threshold ∧ qualifies then "approved" else "pending"

/-- `leave_apply()` (`src/app.py` lines 279-303): store a leave request
with auto-approval. Dates as day ordinals; a missing date field models
both an absent and an empty `start_date`/`end_date` (the same guard
rejects both). `lr_id` stands for the generated uuid. -/
def leave_apply (st : St) (student_id : Option String)
    (sdate edate : Option Int) (reason : String) (lr_id : String)
    (now : Nat) : St × HResp LeaveResp :=
  if student_id.getD "" = "" ∨ sdate.isNone ∨ edate.isNone then (st, .err 400)
  else
    let s := student_id.getD ""
    let sd := sdate.getD 0
    let ed := edate.getD 0
    let duration_days := ed - sd + 1
    let status := leaveStatus duration_days reason
    (auditAdd
        { st with leave_requests := mset st.leave_requests lr_id ⟨s, sd, ed, reason, status⟩ }
        s "leave_applied" now,
     .ok ⟨lr_id, status, duration_days⟩)

/-! ## Persistence failure (for the audit best-effort claim)

`save_data` (`src/app.py` lines 67-70) opens `data_store.json` and writes;
it has no exception handler, and neither does `audit` (lines 72-81) nor
any handler: an `OSError` raised by the write propagates out of the
endpoint. `enrollE` is `enroll` with the two `save_data` calls of its
mutating paths (line 187/194 and the one inside `audit`, line 81) made
explicit: `saveOk` says whether the write succeeds, and `Except.error ()`
is the propagated exception. -/

def save_data (saveOk : Bool) : Except Unit Unit :=
  if saveOk then .ok () else .error ()

/-- `enroll()` with persistence failure made explicit; agrees with
`enroll` when every write succeeds. -/
def enrollE (saveOk : Bool) (st : St)
    (student_id course_code : Option String) (now : Nat) :
    Except Unit (St × HResp EnrollResp) :=
  if student_id.getD "" = "" ∨ course_code.getD "" = "" then .ok (st, .err 400)
  else
    let s := student_id.getD ""
    let c := course_code.getD ""
    match mget st.courses c with
    | none => .ok (st, .err 404)
    | some course =>
      let enr := mgetD st.enrollments c []
      let wl := mgetD st.waitlists c []
      if s ∈ enr then .ok (st, .ok ⟨"already_enrolled", c, none⟩)
      else if enr.length < course.capacity then
        match save_data saveOk with
        | .error e => .error e
        | .ok _ =>
          match save_data saveOk with
          | .error e => .error e
          | .ok _ =>
            .ok (auditAdd
                  { st with enrollments := mset st.enrollments c (enr ++ [s]) }
                  s "enrolled" now,
                 .ok ⟨"enrolled", c, none⟩)
      else if wl.any (fun w => w.student_id == s) then
        .ok (st, .ok ⟨"already_waitlisted", c, none⟩)
      else
        match save_data saveOk with
        | .error e => .error e
        | .ok _ =>
          match save_data saveOk with
          | .error e => .error e
          | .ok _ =>
            .ok (auditAdd
                  { st with waitlists := mset st.waitlists c (wl ++ [⟨s, now⟩]) }
                  s "waitlisted" now,
                 .ok ⟨"waitlisted", c, none⟩)

/-! ## Sequences of registration calls -/

/-- One registration request against the engine: either endpoint, with
arbitrary request fields. -/
inductive Call where
  | enrollC (student_id course_code : Option String) (now : Nat)
  | eventC (student_id event_id : Option String) (now : Nat)
deriving DecidableEq, Repr

/-- The state transition of one call (responses discarded). -/
def applyCall (st : St) : Call → St
  | .enrollC sid cc now => (enroll st sid cc now).1
  | .eventC sid eid now => (event_register st sid eid now).1

/-- Run a sequence of registration calls. -/
def run (st : St) (cs : List Call) : St := cs.foldl applyCall st

/-! ## Case analysis of the two registration endpoints -/

/-- Exhaustive case analysis of `enroll`, one hypothesis per source
branch. -/
theorem enroll_spec (st : St) (sid cc : Option String) (now : Nat)
    (P : St × HResp EnrollResp → Prop)
    (h400 : sid.getD "" = "" ∨ cc.getD "" = "" → P (st, .err 400))
    (h404 : ¬(sid.getD "" = "" ∨ cc.getD "" = "") →
      mget st.courses (cc.getD "") = none → P (st, .err 404))
    (hdup : ∀ course, ¬(sid.getD "" = "" ∨ cc.getD "" = "") →
      mget st.courses (cc.getD "") = some course →
      sid.getD "" ∈ mgetD st.enrollments (cc.getD "") [] →
      P (st, .ok ⟨"already_enrolled", cc.getD "", none⟩))
    (hadm : ∀ course, ¬(sid.getD "" = "" ∨ cc.getD "" = "") →
      mget st.courses (cc.getD "") = some course →
      sid.getD "" ∉ mgetD st.enrollments (cc.getD "") [] →
      (mgetD st.enrollments (cc.getD "") []).length < course.capacity →
      P (auditAdd { st with enrollments := mset st.enrollments (cc.getD "") (mgetD st.enrollments (cc.getD "") [] ++ [sid.getD ""]) } (sid.getD "") "enrolled" now,
         .ok ⟨"enrolled", cc.getD "", none⟩))
    (hdupw : ∀ course, ¬(sid.getD "" = "" ∨ cc.getD "" = "") →
      mget st.courses (cc.getD "") = some course →
      sid.getD "" ∉ mgetD st.enrollments (cc.getD "") [] →
      ¬ (mgetD st.enrollments (cc.getD "") []).length < course.capacity →
      (mgetD st.waitlists (cc.getD "") []).any (fun w => w.student_id == sid.getD "") = true →
      P (st, .ok ⟨"already_waitlisted", cc.getD "", none⟩))
    (hwl : ∀ course, ¬(sid.getD "" = "" ∨ cc.getD "" = "") →
      mget st.courses (cc.getD "") = some course →
      sid.getD "" ∉ mgetD st.enrollments (cc.getD "") [] →
      ¬ (mgetD st.enrollments (cc.getD "") []).length < course.capacity →
      ¬ (mgetD st.waitlists (cc.getD "") []).any (fun w => w.student_id == sid.getD "") = true →
      P (auditAdd { st with waitlists := mset st.waitlists (cc.getD "") (mgetD st.waitlists (cc.getD "") [] ++ [⟨sid.getD "", now⟩]) } (sid.getD "") "waitlisted" now,
         .ok ⟨"waitlisted", cc.getD "", none⟩)) :
    P (enroll st sid cc now) := by
  simp only [enroll]
  split
  · exact h400 ‹_›
  · rename_i hb
    split
    · rename_i hc
      exact h404 hb hc
    · rename_i course hc
      split
      · rename_i hm
        exact hdup course hb hc hm
      · rename_i hm
        split
        · rename_i hcap
          exact hadm course hb hc hm hcap
        · rename_i hcap
          split
          · rename_i hw
            exact hdupw course hb hc hm hcap hw
          · rename_i hw
            exact hwl course hb hc hm hcap hw

/-- Exhaustive case analysis of `event_register`, one hypothesis per
source branch (note: no `already_waitlisted` branch exists here). -/
theorem event_register_spec (st : St) (sid eid : Option String) (now : Nat)
    (P : St × HResp EventResp → Prop)
    (h400 : sid.getD "" = "" ∨ eid.getD "" = "" → P (st, .err 400))
    (h404 : ¬(sid.getD "" = "" ∨ eid.getD "" = "") →
      mget st.events (eid.getD "") = none → P (st, .err 404))
    (hdup : ∀ ev, ¬(sid.getD "" = "" ∨ eid.getD "" = "") →
      mget st.events (eid.getD "") = some ev →
      sid.getD "" ∈ mgetD st.event_registrations (eid.getD "") [] →
      P (st, .ok ⟨"already_registered", none⟩))
    (hadm : ∀ ev : EventRec, ¬(sid.getD "" = "" ∨ eid.getD "" = "") →
      mget st.events (eid.getD "") = some ev →
      sid.getD "" ∉ mgetD st.event_registrations (eid.getD "") [] →
      (mgetD st.event_registrations (eid.getD "") []).length < ev.capacity →
      P (auditAdd { st with event_registrations := mset st.event_registrations (eid.getD "") (mgetD st.event_registrations (eid.getD "") [] ++ [sid.getD ""]) } (sid.getD "") "event_registered" now,
         .ok ⟨"registered", none⟩))
    (hwl : ∀ ev : EventRec, ¬(sid.getD "" = "" ∨ eid.getD "" = "") →
      mget st.events (eid.getD "") = some ev →
      sid.getD "" ∉ mgetD st.event_registrations (eid.getD "") [] →
      ¬ (mgetD st.event_registrations (eid.getD "") []).length < ev.capacity →
      P (auditAdd { st with event_waitlists := mset st.event_waitlists (eid.getD "") (mgetD st.event_waitlists (eid.getD "") [] ++ [⟨sid.getD "", now⟩]) } (sid.getD "") "event_waitlisted" now,
         .ok ⟨"waitlisted", none⟩)) :
    P (event_register st sid eid now) := by
  simp only [event_register]
  split
  · exact h400 ‹_›
  · rename_i hb
    split
    · rename_i he
      exact h404 hb he
    · rename_i ev he
      split
      · rename_i hm
        exact hdup ev hb he hm
      · rename_i hm
        split
        · rename_i hcap
          exact hadm ev hb he hm hcap
        · rename_i hcap
          exact hwl ev hb he hm hcap

/-! ## The capacity invariant -/

/-- Per-resource capacity bound: every known course's enrollment list and
every known event's registration list is no longer than its capacity. -/
def capInv (st : St) : Prop :=
  (∀ c course, mget st.courses c = some course →
      (mgetD st.enrollments c []).length ≤ course.capacity) ∧
  (∀ e ev, mget st.events e = some ev →
      (mgetD st.event_registrations e []).length ≤ ev.capacity)

theorem capInv_enroll (st : St) (sid cc : Option String) (now : Nat)
    (h : capInv st) : capInv (enroll st sid cc now).1 := by
  obtain ⟨h1, h2⟩ := h
  refine enroll_spec st sid cc now (fun r => capInv r.1) ?_ ?_ ?_ ?_ ?_ ?_
  · intro _; exact ⟨h1, h2⟩
  · intro _ _; exact ⟨h1, h2⟩
  · intro _ _ _ _; exact ⟨h1, h2⟩
  · intro course _ hc _ hcap
    refine ⟨?_, h2⟩
    intro c' course' hc'
    simp only [auditAdd] at hc' ⊢
    rw [mgetD_mset]
    split
    · rename_i hceq
      rw [hceq] at hc
      rw [hc'] at hc
      cases hc
      simpa using Nat.succ_le_of_lt hcap
    · exact h1 c' course' hc'
  · intro _ _ _ _ _ _; exact ⟨h1, h2⟩
  · intro course _ _ _ _ _
    exact ⟨fun c' course' hc' => h1 c' course' hc', h2⟩

theorem capInv_event_register (st : St) (sid eid : Option String)
    (now : Nat) (h : capInv st) : capInv (event_register st sid eid now).1 := by
  obtain ⟨h1, h2⟩ := h
  refine event_register_spec st sid eid now (fun r => capInv r.1) ?_ ?_ ?_ ?_ ?_
  · intro _; exact ⟨h1, h2⟩
  · intro _ _; exact ⟨h1, h2⟩
  · intro _ _ _ _; exact ⟨h1, h2⟩
  · intro ev _ he _ hcap
    refine ⟨h1, ?_⟩
    intro e' ev' he'
    simp only [auditAdd] at he' ⊢
    rw [mgetD_mset]
    split
    · rename_i heeq
      rw [heeq] at he
      rw [he'] at he
      cases he
      simpa using Nat.succ_le_of_lt hcap
    · exact h2 e' ev' he'
  · intro ev _ _ _ _
    exact ⟨h1, fun e' ev' he' => h2 e' ev' he'⟩

theorem capInv_applyCall (st : St) (c : Call) (h : capInv st) :
    capInv (applyCall st c) := by
  cases c with
  | enrollC sid cc now => exact capInv_enroll st sid cc now h
  | eventC sid eid now => exact capInv_event_register st sid eid now h

theorem capInv_run (st : St) (cs : List Call) (h : capInv st) :
    capInv (run st cs) := by
  induction cs generalizing st with
  | nil => exact h
  | cons c cs ih => exact ih (applyCall st c) (capInv_applyCall st c h)

/-- C1: for every resource (course or event) and every sequence of
`register` calls starting from a state where the number of holders does
not exceed the capacity, the number of holders never exceeds the
resource's capacity — a student is appended to the holders list only
when the current count is strictly below capacity. -/
theorem C1_holders_bounded_by_capacity (st : St) (cs : List Call)
    (h : capInv st) : capInv (run st cs) :=
  capInv_run st cs h

theorem C1_holders_bounded_by_capacity_witness :
    capInv seedSt ∧
    capInv (run seedSt
      [Call.enrollC (some "s001") (some "CSE101") 0,
       Call.enrollC (some "s002") (some "CSE101") 1,
       Call.enrollC (some "s003") (some "CSE101") 2,
       Call.enrollC (some "s004") (some "MTH101") 3,
       Call.eventC (some "s001") (some "EVT100") 4,
       Call.eventC (some "s002") (some "EVT100") 5,
       Call.eventC (some "s003") (some "EVT100") 6]) := by
  have hseed : capInv seedSt := by
    constructor <;> intro k v hk <;> simp [seedSt, mgetD, mget]
  exact ⟨hseed, C1_holders_bounded_by_capacity seedSt _ hseed⟩

/-! ## Per-resource membership invariant -/

/-- Membership invariant that the code actually maintains: per course,
holders are duplicate-free, the waitlist is duplicate-free, holders and
waitlist are disjoint, and a non-empty waitlist certifies a full holder
list; per event the same except that nothing prevents duplicates inside
the event waitlist (the source has no membership check there). -/
def regInv (st : St) : Prop :=
  (∀ c course, mget st.courses c = some course →
      (mgetD st.enrollments c []).Nodup ∧
      ((mgetD st.waitlists c []).map (fun w => w.student_id)).Nodup ∧
      (∀ s ∈ mgetD st.enrollments c [],
        s ∉ (mgetD st.waitlists c []).map (fun w => w.student_id)) ∧
      (mgetD st.waitlists c [] ≠ [] →
        course.capacity ≤ (mgetD st.enrollments c []).length)) ∧
  (∀ e ev, mget st.events e = some ev →
      (mgetD st.event_registrations e []).Nodup ∧
      (∀ s ∈ mgetD st.event_registrations e [],
        s ∉ (mgetD st.event_waitlists e []).map (fun w => w.student_id)) ∧
      (mgetD st.event_waitlists e [] ≠ [] →
        ev.capacity ≤ (mgetD st.event_registrations e []).length))

theorem regInv_enroll (st : St) (sid cc : Option String) (now : Nat)
    (h : regInv st) : regInv (enroll st sid cc now).1 := by
  obtain ⟨h1, h2⟩ := h
  refine enroll_spec st sid cc now (fun r => regInv r.1) ?_ ?_ ?_ ?_ ?_ ?_
  · intro _; exact ⟨h1, h2⟩
  · intro _ _; exact ⟨h1, h2⟩
  · intro _ _ _ _; exact ⟨h1, h2⟩
  · -- admitted to the holders list
    intro course hb hc hm hcap
    refine ⟨?_, h2⟩
    intro c' course' hc'
    simp only [auditAdd] at hc' ⊢
    obtain ⟨hn, hwn, hdisj, haux⟩ := h1 c' course' hc'
    rw [mgetD_mset]
    split
    · rename_i hceq
      subst hceq
      have hcc : course' = course := by
        rw [hc'] at hc; exact Option.some.inj hc
      subst hcc
      have hwl : mgetD st.waitlists (cc.getD "") [] = [] := by
        by_contra hne
        have := haux hne
        omega
      refine ⟨?_, hwn, ?_, ?_⟩
      · simp only [List.nodup_append]
        exact ⟨hn, List.nodup_singleton _, by
          intro x hx hxs
          simp only [List.mem_singleton] at hxs
          exact hm (hxs ▸ hx)⟩
      · intro x _
        simp [hwl]
      · intro hne
        simp [hwl] at hne
    · exact ⟨hn, hwn, hdisj, haux⟩
  · intro _ _ _ _ _ _; exact ⟨h1, h2⟩
  · -- appended to the waitlist
    intro course hb hc hm hcap hw
    refine ⟨?_, h2⟩
    intro c' course' hc'
    simp only [auditAdd] at hc' ⊢
    obtain ⟨hn, hwn, hdisj, haux⟩ := h1 c' course' hc'
    rw [mgetD_mset]
    split
    · rename_i hceq
      subst hceq
      have hcc : course' = course := by
        rw [hc'] at hc; exact Option.some.inj hc
      subst hcc
      have hnotin : sid.getD "" ∉
          (mgetD st.waitlists (cc.getD "") []).map (fun w => w.student_id) := by
        intro hs
        rcases List.mem_map.mp hs with ⟨w, hwmem, hws⟩
        exact hw (List.any_eq_true.mpr ⟨w, hwmem, by simp [hws]⟩)
      refine ⟨hn, ?_, ?_, ?_⟩
      · simp only [List.map_append, List.nodup_append]
        exact ⟨hwn, by simp, by
          intro x hx hxs
          simp only [List.map_cons, List.map_nil, List.mem_singleton] at hxs
          exact hnotin (hxs ▸ hx)⟩
      · intro x hx
        simp only [List.map_append, List.mem_append, List.map_cons,
          List.map_nil, List.mem_singleton]
        rintro (hxw | hxs)
        · exact hdisj x hx hxw
        · exact hm (hxs ▸ hx)
      · intro _
        omega
    · exact ⟨hn, hwn, hdisj, haux⟩

theorem regInv_event_register (st : St) (sid eid : Option String)
    (now : Nat) (h : regInv st) : regInv (event_register st sid eid now).1 := by
  obtain ⟨h1, h2⟩ := h
  refine event_register_spec st sid eid now (fun r => regInv r.1) ?_ ?_ ?_ ?_ ?_
  · intro _; exact ⟨h1, h2⟩
  · intro _ _; exact ⟨h1, h2⟩
  · intro _ _ _ _; exact ⟨h1, h2⟩
  · -- admitted to the holders list
    intro ev hb he hm hcap
    refine ⟨h1, ?_⟩
    intro e' ev' he'
    simp only [auditAdd] at he' ⊢
    obtain ⟨hn, hdisj, haux⟩ := h2 e' ev' he'
    rw [mgetD_mset]
    split
    · rename_i heeq
      subst heeq
      have hee : ev' = ev := by
        rw [he'] at he; exact Option.some.inj he
      subst hee
      have hwl : mgetD st.event_waitlists (eid.getD "") [] = [] := by
        by_contra hne
        have := haux hne
        omega
      refine ⟨?_, ?_, ?_⟩
      · simp only [List.nodup_append]
        exact ⟨hn, List.nodup_singleton _, by
          intro x hx hxs
          simp only [List.mem_singleton] at hxs
          exact hm (hxs ▸ hx)⟩
      · intro x _
        simp [hwl]
      · intro hne
        simp [hwl] at hne
    · exact ⟨hn, hdisj, haux⟩
  · -- appended (unconditionally) to the event waitlist
    intro ev hb he hm hcap
    refine ⟨h1, ?_⟩
    intro e' ev' he'
    simp only [auditAdd] at he' ⊢
    obtain ⟨hn, hdisj, haux⟩ := h2 e' ev' he'
    rw [mgetD_mset]
    split
    · rename_i heeq
      subst heeq
      have hee : ev' = ev := by
        rw [he'] at he; exact Option.some.inj he
      subst hee
      refine ⟨hn, ?_, ?_⟩
      · intro x hx
        simp only [List.map_append, List.mem_append, List.map_cons,
          List.map_nil, List.mem_singleton]
        rintro (hxw | hxs)
        · exact hdisj x hx hxw
        · exact hm (hxs ▸ hx)
      · intro _
        omega
    · exact ⟨hn, hdisj, haux⟩

theorem regInv_applyCall (st : St) (c : Call) (h : regInv st) :
    regInv (applyCall st c) := by
  cases c with
  | enrollC sid cc now => exact regInv_enroll st sid cc now h
  | eventC sid eid now => exact regInv_event_register st sid eid now h

theorem regInv_run (st : St) (cs : List Call) (h : regInv st) :
    regInv (run st cs) := by
  induction cs generalizing st with
  | nil => exact h
  | cons c cs ih => exact ih (applyCall st c) (regInv_applyCall st c h)

/-! ## Concrete scenarios -/

/-- Three event registrations against `EVT100` (capacity 2): `s001` and
`s002` are admitted, `s003` is waitlisted. -/
def evtScenario : St :=
  run seedSt [Call.eventC (some "s001") (some "EVT100") 0,
              Call.eventC (some "s002") (some "EVT100") 1,
              Call.eventC (some "s003") (some "EVT100") 2]

/-- Course `CSE101` (capacity 2) filled by `s001` and `s002`. -/
def fullCourseSt : St :=
  run seedSt [Call.enrollC (some "s001") (some "CSE101") 0,
              Call.enrollC (some "s002") (some "CSE101") 1]

/-! ## C6: per-resource membership -/

/-- C6 counterexample: from the seed state, the call sequence
(s001, s002, s003, s003 against EVT100) leaves `s003` twice on the event
waitlist — `event_register` re-appends an already-waitlisted student, so
"a student appears at most once within each waitlist" fails. -/
theorem C6_counterexample_duplicate_event_waitlist :
    ¬ ((mgetD (run seedSt
        [Call.eventC (some "s001") (some "EVT100") 0,
         Call.eventC (some "s002") (some "EVT100") 1,
         Call.eventC (some "s003") (some "EVT100") 2,
         Call.eventC (some "s003") (some "EVT100") 3]).event_waitlists
          "EVT100" []).map (fun w => w.student_id)).Nodup := by
  decide

/-- C6 (amended): for every resource, holders contain no duplicate and no
student is simultaneously a holder and a waitlist entry; the course
waitlist also contains no duplicate; the event waitlist, however, may
hold the same student several times, so only the remaining invariant is
preserved by every sequence of register calls. -/
theorem C6_membership_invariant (st : St) (cs : List Call)
    (h : regInv st) : regInv (run st cs) :=
  regInv_run st cs h

theorem C6_membership_invariant_witness :
    regInv seedSt ∧
    regInv (run seedSt
      [Call.enrollC (some "s001") (some "CSE101") 0,
       Call.enrollC (some "s001") (some "CSE101") 1,
       Call.enrollC (some "s002") (some "MTH101") 2,
       Call.enrollC (some "s003") (some "MTH101") 3,
       Call.eventC (some "s002") (some "EVT100") 4]) := by
  have hseed : regInv seedSt := by
    constructor <;> intro k v hk <;> simp [seedSt, mgetD, mget]
  exact ⟨hseed, C6_membership_invariant seedSt _ hseed⟩

/-! ## C3: idempotency of duplicate registrations -/

/-- C3 counterexample: `s003` is already on the EVT100 waitlist, yet a
repeated `event_register` call returns status `waitlisted` (not
`already_waitlisted`) and mutates the state (the waitlist grows). -/
theorem C3_counterexample_event_rewaitlist :
    "s003" ∈ (mgetD evtScenario.event_waitlists "EVT100" []).map
      (fun w => w.student_id) ∧
    (event_register evtScenario (some "s003") (some "EVT100") 3).2 =
      .ok ⟨"waitlisted", none⟩ ∧
    (event_register evtScenario (some "s003") (some "EVT100") 3).1 ≠
      evtScenario := by
  decide

/-- C3 (amended): course enrollment is idempotent on duplicates — a
holder gets `already_enrolled` and a waitlisted student gets
`already_waitlisted`, in both cases with the whole state unchanged — and
event registration is idempotent for students already in the holders
list (`already_registered`, state unchanged); but a student already on
an event waitlist is appended to it again with status `waitlisted`:
event registration is not idempotent-safe for waitlisted duplicates. -/
theorem C3_duplicate_registration (st : St) (sid cc eid : Option String)
    (now : Nat) :
    (∀ course, ¬(sid.getD "" = "" ∨ cc.getD "" = "") →
      mget st.courses (cc.getD "") = some course →
      sid.getD "" ∈ mgetD st.enrollments (cc.getD "") [] →
      enroll st sid cc now = (st, .ok ⟨"already_enrolled", cc.getD "", none⟩)) ∧
    (∀ course, ¬(sid.getD "" = "" ∨ cc.getD "" = "") →
      mget st.courses (cc.getD "") = some course →
      sid.getD "" ∉ mgetD st.enrollments (cc.getD "") [] →
      ¬ (mgetD st.enrollments (cc.getD "") []).length < course.capacity →
      (mgetD st.waitlists (cc.getD "") []).any (fun w => w.student_id == sid.getD "") = true →
      enroll st sid cc now = (st, .ok ⟨"already_waitlisted", cc.getD "", none⟩)) ∧
    (∀ ev : EventRec, ¬(sid.getD "" = "" ∨ eid.getD "" = "") →
      mget st.events (eid.getD "") = some ev →
      sid.getD "" ∈ mgetD st.event_registrations (eid.getD "") [] →
      event_register st sid eid now = (st, .ok ⟨"already_registered", none⟩)) ∧
    (∀ ev : EventRec, ¬(sid.getD "" = "" ∨ eid.getD "" = "") →
      mget st.events (eid.getD "") = some ev →
      sid.getD "" ∉ mgetD st.event_registrations (eid.getD "") [] →
      ¬ (mgetD st.event_registrations (eid.getD "") []).length < ev.capacity →
      (event_register st sid eid now).2 = .ok ⟨"waitlisted", none⟩ ∧
      mgetD (event_register st sid eid now).1.event_waitlists (eid.getD "") [] =
        mgetD st.event_waitlists (eid.getD "") [] ++ [⟨sid.getD "", now⟩]) := by
  refine ⟨?_, ?_, ?_, ?_⟩
  · intro course hb hc hm
    refine enroll_spec st sid cc now
      (fun r => r = (st, .ok ⟨"already_enrolled", cc.getD "", none⟩))
      ?_ ?_ ?_ ?_ ?_ ?_
    · intro habs; exact absurd habs hb
    · intro _ hnone; rw [hc] at hnone; cases hnone
    · intro _ _ _ _; rfl
    · intro _ _ _ hm2 _; exact absurd hm hm2
    · intro _ _ _ hm2 _ _; exact absurd hm hm2
    · intro _ _ _ hm2 _ _; exact absurd hm hm2
  · intro course hb hc hm hcap hw
    refine enroll_spec st sid cc now
      (fun r => r = (st, .ok ⟨"already_waitlisted", cc.getD "", none⟩))
      ?_ ?_ ?_ ?_ ?_ ?_
    · intro habs; exact absurd habs hb
    · intro _ hnone; rw [hc] at hnone; cases hnone
    · intro _ _ _ hm2; exact absurd hm2 hm
    · intro course2 _ hc2 _ hcap2
      rw [hc] at hc2
      cases Option.some.inj hc2
      exact absurd hcap2 hcap
    · intro _ _ _ _ _ _; rfl
    · intro _ _ _ _ _ hw2; exact absurd hw hw2
  · intro ev hb he hm
    refine event_register_spec st sid eid now
      (fun r => r = (st, .ok ⟨"already_registered", none⟩))
      ?_ ?_ ?_ ?_ ?_
    · intro habs; exact absurd habs hb
    · intro _ hnone; rw [he] at hnone; cases hnone
    · intro _ _ _ _; rfl
    · intro _ _ _ hm2 _; exact absurd hm hm2
    · intro _ _ _ hm2 _; exact absurd hm hm2
  · intro ev hb he hm hcap
    refine event_register_spec st sid eid now
      (fun r => r.2 = .ok ⟨"waitlisted", none⟩ ∧
        mgetD r.1.event_waitlists (eid.getD "") [] =
          mgetD st.event_waitlists (eid.getD "") [] ++ [⟨sid.getD "", now⟩])
      ?_ ?_ ?_ ?_ ?_
    · intro habs; exact absurd habs hb
    · intro _ hnone; rw [he] at hnone; cases hnone
    · intro _ _ _ hm2; exact absurd hm2 hm
    · intro ev2 _ he2 _ hcap2
      rw [he] at he2
      cases Option.some.inj he2
      exact absurd hcap2 hcap
    · intro _ _ _ _ _
      exact ⟨rfl, by simp [auditAdd, mgetD_mset]⟩

theorem C3_duplicate_registration_witness :
    enroll (run seedSt [Call.enrollC (some "s001") (some "CSE101") 0])
        (some "s001") (some "CSE101") 1 =
      (run seedSt [Call.enrollC (some "s001") (some "CSE101") 0],
       .ok ⟨"already_enrolled", "CSE101", none⟩) ∧
    event_register evtScenario (some "s001") (some "EVT100") 4 =
      (evtScenario, .ok ⟨"already_registered", none⟩) :=
  ⟨(C3_duplicate_registration
      (run seedSt [Call.enrollC (some "s001") (some "CSE101") 0])
      (some "s001") (some "CSE101") (some "EVT100") 1).1
      ⟨"Intro to Computer Science", 2⟩ (by decide) (by decide) (by decide),
   (C3_duplicate_registration evtScenario
      (some "s001") (some "CSE101") (some "EVT100") 4).2.2.1
      ⟨"Freshers Meet", 2⟩ (by decide) (by decide) (by decide)⟩

/-! ## C2: waitlisting a new student when the resource is full -/

/-- C2 counterexample: with CSE101 full, a fresh student `s003` is
appended to the waitlist (which then has length 1), but the response
carries no position at all — `position` is `none`, not `some 1` as the
claim requires. -/
theorem C2_counterexample_no_position_reported :
    (enroll fullCourseSt (some "s003") (some "CSE101") 2).2 =
      .ok ⟨"waitlisted", "CSE101", none⟩ ∧
    mgetD (enroll fullCourseSt (some "s003") (some "CSE101") 2).1.waitlists
      "CSE101" [] = [⟨"s003", 2⟩] ∧
    (enroll fullCourseSt (some "s003") (some "CSE101") 2).2 ≠
      .ok ⟨"waitlisted", "CSE101",
        some (mgetD (enroll fullCourseSt (some "s003") (some "CSE101") 2).1.waitlists
          "CSE101" []).length⟩ := by
  decide

/-- C2 (amended): for a full resource and a student neither holding nor
waitlisted, register appends `{student_id, now}` at the end of the
waitlist (preserving FIFO order) and returns status `waitlisted`, but
reports no position: the response carries only the status (plus the
course code for courses), its position field stays `none`. -/
theorem C2_full_resource_waitlists (st : St) (sid cc eid : Option String)
    (now : Nat) :
    (∀ course, ¬(sid.getD "" = "" ∨ cc.getD "" = "") →
      mget st.courses (cc.getD "") = some course →
      sid.getD "" ∉ mgetD st.enrollments (cc.getD "") [] →
      ¬ (mgetD st.enrollments (cc.getD "") []).length < course.capacity →
      ¬ (mgetD st.waitlists (cc.getD "") []).any (fun w => w.student_id == sid.getD "") = true →
      enroll st sid cc now =
        (auditAdd { st with waitlists := mset st.waitlists (cc.getD "") (mgetD st.waitlists (cc.getD "") [] ++ [⟨sid.getD "", now⟩]) } (sid.getD "") "waitlisted" now,
         .ok ⟨"waitlisted", cc.getD "", none⟩)) ∧
    (∀ ev : EventRec, ¬(sid.getD "" = "" ∨ eid.getD "" = "") →
      mget st.events (eid.getD "") = some ev →
      sid.getD "" ∉ mgetD st.event_registrations (eid.getD "") [] →
      ¬ (mgetD st.event_registrations (eid.getD "") []).length < ev.capacity →
      event_register st sid eid now =
        (auditAdd { st with event_waitlists := mset st.event_waitlists (eid.getD "") (mgetD st.event_waitlists (eid.getD "") [] ++ [⟨sid.getD "", now⟩]) } (sid.getD "") "event_waitlisted" now,
         .ok ⟨"waitlisted", none⟩)) := by
  constructor
  · intro course hb hc hm hcap hw
    refine enroll_spec st sid cc now (fun r => r = _) ?_ ?_ ?_ ?_ ?_ ?_
    · intro habs; exact absurd habs hb
    · intro _ hnone; rw [hc] at hnone; cases hnone
    · intro _ _ _ hm2; exact absurd hm2 hm
    · intro course2 _ hc2 _ hcap2
      rw [hc] at hc2
      cases Option.some.inj hc2
      exact absurd hcap2 hcap
    · intro _ _ _ _ _ hw2; exact absurd hw2 hw
    · intro _ _ _ _ _ _; rfl
  · intro ev hb he hm hcap
    refine event_register_spec st sid eid now (fun r => r = _) ?_ ?_ ?_ ?_ ?_
    · intro habs; exact absurd habs hb
    · intro _ hnone; rw [he] at hnone; cases hnone
    · intro _ _ _ hm2; exact absurd hm2 hm
    · intro ev2 _ he2 _ hcap2
      rw [he] at he2
      cases Option.some.inj he2
      exact absurd hcap2 hcap
    · intro _ _ _ _ _; rfl

theorem C2_full_resource_waitlists_witness :
    enroll fullCourseSt (some "s003") (some "CSE101") 2 =
      (auditAdd { fullCourseSt with waitlists := mset fullCourseSt.waitlists "CSE101" (mgetD fullCourseSt.waitlists "CSE101" [] ++ [⟨"s003", 2⟩]) } "s003" "waitlisted" 2,
       .ok ⟨"waitlisted", "CSE101", none⟩) :=
  (C2_full_resource_waitlists fullCourseSt
    (some "s003") (some "CSE101") (some "EVT100") 2).1
    ⟨"Intro to Computer Science", 2⟩ (by decide) (by decide) (by decide)
    (by decide) (by decide)

/-! ## C4: leave auto-approval -/

/-- The source's status expression equals the spec's pure `decide`
function instantiated with threshold 3 and the non-empty-reason
condition. -/
theorem leaveStatus_eq_decideLeave (d : Int) (r : String) :
    leaveStatus d r = decideLeave d (!(r == "")) 3 := by
  by_cases h1 : d ≤ 3
  · by_cases h2 : r = "" <;> simp [leaveStatus, decideLeave, h1, h2]
  · simp [leaveStatus, decideLeave, h1]

/-- C4: a leave application is stored and returned with status
`approved` exactly when its duration `(end - start) + 1` is at most 3
days and a non-empty reason was supplied, `pending` otherwise; this is
the pure function `decide(days, qualifies, threshold)`, and
`decide(3, true, 3) = approved`, `decide(4, true, 3) = pending`,
`decide(2, false, 2) = pending`. -/
theorem C4_leave_auto_approval (st : St) (sid : Option String)
    (sd ed : Option Int) (reason lr_id : String) (now : Nat) :
    (∀ s d e, sid = some s → s ≠ "" → sd = some d → ed = some e →
      (leave_apply st sid sd ed reason lr_id now).2 =
        .ok ⟨lr_id, decideLeave (e - d + 1) (!(reason == "")) 3, e - d + 1⟩ ∧
      mget (leave_apply st sid sd ed reason lr_id now).1.leave_requests lr_id =
        some ⟨s, d, e, reason, decideLeave (e - d + 1) (!(reason == "")) 3⟩ ∧
      (decideLeave (e - d + 1) (!(reason == "")) 3 = "approved" ↔
        e - d + 1 ≤ 3 ∧ reason ≠ "")) ∧
    decideLeave 3 true 3 = "approved" ∧
    decideLeave 4 true 3 = "pending" ∧
    decideLeave 2 false 2 = "pending" := by
  refine ⟨?_, by decide, by decide, by decide⟩
  intro s d e hs hsne hd he
  subst hs hd he
  have hng : ¬((some s).getD "" = "" ∨ (Option.some d).isNone = true ∨
      (Option.some e).isNone = true) := by
    simp [hsne]
  refine ⟨?_, ?_, ?_⟩
  · simp only [leave_apply, if_neg hng]
    simp [leaveStatus_eq_decideLeave]
  · simp only [leave_apply, if_neg hng, auditAdd]
    simp [mget_mset, leaveStatus_eq_decideLeave]
  · by_cases h1 : e - d + 1 ≤ 3 <;> by_cases h2 : reason = "" <;>
      simp [decideLeave, h1, h2]

theorem C4_leave_auto_approval_witness :
    (leave_apply seedSt (some "s001") (some 10) (some 12) "fever" "L1" 5).2 =
      .ok ⟨"L1", "approved", 3⟩ ∧
    decideLeave 3 true 3 = "approved" ∧
    decideLeave 4 true 3 = "pending" ∧
    decideLeave 2 false 2 = "pending" := by
  have h := C4_leave_auto_approval seedSt (some "s001") (some 10) (some 12)
    "fever" "L1" 5
  have h1 := (h.1 "s001" 10 12 rfl (by decide) rfl rfl).1
  exact ⟨h1.trans (by decide), h.2.1, h.2.2.1, h.2.2.2⟩

/-! ## C9: negative durations are accepted and auto-approved -/

/-- C9 (implicit): `leave_apply` accepts an `end_date` strictly earlier
than the `start_date`; the computed duration `(end - start) + 1` is then
at most zero, and with a non-empty reason the request is still
auto-approved, since any non-positive duration satisfies
`duration_days <= 3`. -/
theorem C9_negative_duration_approved (st : St) (sid : Option String)
    (sd ed : Int) (reason lr_id : String) (now : Nat)
    (hs : sid.getD "" ≠ "") (hlt : ed < sd) (hr : reason ≠ "") :
    (leave_apply st sid (some sd) (some ed) reason lr_id now).2 =
      .ok ⟨lr_id, "approved", ed - sd + 1⟩ ∧
    ed - sd + 1 ≤ 0 := by
  have hng : ¬(sid.getD "" = "" ∨ (Option.some sd).isNone = true ∨
      (Option.some ed).isNone = true) := by
    simp [hs]
  constructor
  · simp only [leave_apply, if_neg hng]
    have : leaveStatus (ed - sd + 1) reason = "approved" := by
      simp only [leaveStatus]
      rw [if_pos ⟨by omega, hr⟩]
    simp [this]
  · omega

theorem C9_negative_duration_approved_witness :
    (Option.some "s001").getD "" ≠ "" ∧ (5 : Int) < 10 ∧ "trip" ≠ "" ∧
    ((leave_apply seedSt (some "s001") (some 10) (some 5) "trip" "L2" 0).2 =
      .ok ⟨"L2", "approved", -4⟩ ∧ (-4 : Int) ≤ 0) := by
  refine ⟨by decide, by decide, by decide, ?_⟩
  have h := C9_negative_duration_approved seedSt (some "s001") 10 5 "trip"
    "L2" 0 (by decide) (by decide) (by decide)
  exact ⟨h.1.trans (by norm_num), by norm_num⟩

/-! ## C5: validation failures and unknown resources mutate nothing -/

/-- C5: for each registration-style operation, a missing required field
fails with HTTP 400 and an unknown resource id fails with HTTP 404, and
in both cases the returned state is exactly the input state: no holders,
waitlist or booking mutation and no audit entry. -/
theorem C5_validation_and_notfound (st : St) (sid cc eid hid : Option String)
    (bid : String) (now : Nat) :
    ((sid.getD "" = "" ∨ cc.getD "" = "") →
      enroll st sid cc now = (st, .err 400)) ∧
    (¬(sid.getD "" = "" ∨ cc.getD "" = "") →
      mget st.courses (cc.getD "") = none →
      enroll st sid cc now = (st, .err 404)) ∧
    ((sid.getD "" = "" ∨ eid.getD "" = "") →
      event_register st sid eid now = (st, .err 400)) ∧
    (¬(sid.getD "" = "" ∨ eid.getD "" = "") →
      mget st.events (eid.getD "") = none →
      event_register st sid eid now = (st, .err 404)) ∧
    ((sid.getD "" = "" ∨ hid.getD "" = "") →
      hostel_book st sid hid bid now = (st, .err 400)) ∧
    (¬(sid.getD "" = "" ∨ hid.getD "" = "") →
      mget st.hostels (hid.getD "") = none →
      hostel_book st sid hid bid now = (st, .err 404)) := by
  refine ⟨?_, ?_, ?_, ?_, ?_, ?_⟩
  · intro h
    simp only [enroll, if_pos h]
  · intro hb hn
    simp only [enroll, if_neg hb, hn]
  · intro h
    simp only [event_register, if_pos h]
  · intro hb hn
    simp only [event_register, if_neg hb, hn]
  · intro h
    simp only [hostel_book, if_pos h]
  · intro hb hn
    simp only [hostel_book, if_neg hb, hn]

theorem C5_validation_and_notfound_witness :
    enroll seedSt none (some "CSE101") 0 = (seedSt, .err 400) ∧
    enroll seedSt (some "s001") (some "ZZZ") 0 = (seedSt, .err 404) ∧
    event_register seedSt (some "s001") none 0 = (seedSt, .err 400) ∧
    event_register seedSt (some "s001") (some "ZZZ") 0 = (seedSt, .err 404) ∧
    hostel_book seedSt (some "") (some "H1") "B1" 0 = (seedSt, .err 400) ∧
    hostel_book seedSt (some "s001") (some "ZZZ") "B1" 0 = (seedSt, .err 404) := by
  have h := fun eid => C5_validation_and_notfound seedSt none (some "CSE101")
    eid (some "H1") "B1" 0
  refine ⟨(h none).1 (by decide), ?_, ?_, ?_, ?_, ?_⟩
  · exact (C5_validation_and_notfound seedSt (some "s001") (some "ZZZ") none
      none "B1" 0).2.1 (by decide) (by decide)
  · exact (C5_validation_and_notfound seedSt (some "s001") none none none
      "B1" 0).2.2.1 (by decide)
  · exact (C5_validation_and_notfound seedSt (some "s001") none (some "ZZZ")
      none "B1" 0).2.2.2.1 (by decide) (by decide)
  · exact (C5_validation_and_notfound seedSt (some "") none none (some "H1")
      "B1" 0).2.2.2.2.1 (by decide)
  · exact (C5_validation_and_notfound seedSt (some "s001") none none
      (some "ZZZ") "B1" 0).2.2.2.2.2 (by decide) (by decide)

/-! ## C7: audit entries and append-only log -/

theorem mset_append_ne {α : Type} (m : List (String × List α)) (k : String)
    (xs : List α) (h : xs ≠ []) :
    mset m k (mgetD m k [] ++ xs) ≠ m := by
  apply ne_of_mget_ne k
  rw [mget_mset, if_pos rfl]
  cases hm : mget m k with
  | none => simp
  | some l =>
    simp only [mgetD, hm, Option.getD_some, ne_eq, Option.some.injEq]
    intro he
    have hlen := congrArg List.length he
    rw [List.length_append] at hlen
    have : xs.length = 0 := by omega
    exact h (List.length_eq_zero.mp this)

/-- The state components a registration endpoint may mutate (holders and
waitlists of courses and events). -/
def mutatesReg (st st' : St) : Prop :=
  st'.enrollments ≠ st.enrollments ∨ st'.waitlists ≠ st.waitlists ∨
  st'.event_registrations ≠ st.event_registrations ∨
  st'.event_waitlists ≠ st.event_waitlists

/-- C7: every register call that mutates state appends exactly one audit
entry, whose actor (`user`) is the registering `student_id`, to the
process-wide log, and the log is append-only: the new log is the old log
with zero or one entries appended, so no existing entry is removed or
altered; a non-mutating call appends nothing. -/
theorem C7_audit_append_only (st : St) (sid cc eid : Option String)
    (now : Nat) :
    (∃ t, (enroll st sid cc now).1.audit_logs = st.audit_logs ++ t ∧
      t.length ≤ 1 ∧
      (mutatesReg st (enroll st sid cc now).1 →
        ∃ a : AuditEntry, t = [a] ∧ some a.user = sid) ∧
      (¬ mutatesReg st (enroll st sid cc now).1 → t = [])) ∧
    (∃ t, (event_register st sid eid now).1.audit_logs = st.audit_logs ++ t ∧
      t.length ≤ 1 ∧
      (mutatesReg st (event_register st sid eid now).1 →
        ∃ a : AuditEntry, t = [a] ∧ some a.user = sid) ∧
      (¬ mutatesReg st (event_register st sid eid now).1 → t = [])) := by
  constructor
  · refine enroll_spec st sid cc now (fun r =>
      ∃ t, r.1.audit_logs = st.audit_logs ++ t ∧ t.length ≤ 1 ∧
        (mutatesReg st r.1 → ∃ a : AuditEntry, t = [a] ∧ some a.user = sid) ∧
        (¬ mutatesReg st r.1 → t = [])) ?_ ?_ ?_ ?_ ?_ ?_
    · intro _
      exact ⟨[], by simp, by simp, fun hmu => by
        rcases hmu with h | h | h | h <;> exact absurd rfl h, fun _ => rfl⟩
    · intro _ _
      exact ⟨[], by simp, by simp, fun hmu => by
        rcases hmu with h | h | h | h <;> exact absurd rfl h, fun _ => rfl⟩
    · intro _ _ _ _
      exact ⟨[], by simp, by simp, fun hmu => by
        rcases hmu with h | h | h | h <;> exact absurd rfl h, fun _ => rfl⟩
    · intro course hb _ _ _
      refine ⟨[⟨sid.getD "", "enrolled", now⟩], rfl, by simp, ?_, ?_⟩
      · intro _
        exact ⟨_, rfl, (getD_eq_some (fun h => hb (Or.inl h))).symm⟩
      · intro hnmu
        exact absurd (Or.inl (mset_append_ne st.enrollments (cc.getD "")
          [sid.getD ""] (by simp))) hnmu
    · intro _ _ _ _ _ _
      exact ⟨[], by simp, by simp, fun hmu => by
        rcases hmu with h | h | h | h <;> exact absurd rfl h, fun _ => rfl⟩
    · intro course hb _ _ _ _
      refine ⟨[⟨sid.getD "", "waitlisted", now⟩], rfl, by simp, ?_, ?_⟩
      · intro _
        exact ⟨_, rfl, (getD_eq_some (fun h => hb (Or.inl h))).symm⟩
      · intro hnmu
        exact absurd (Or.inr (Or.inl (mset_append_ne st.waitlists
          (cc.getD "") [⟨sid.getD "", now⟩] (by simp)))) hnmu
  · refine event_register_spec st sid eid now (fun r =>
      ∃ t, r.1.audit_logs = st.audit_logs ++ t ∧ t.length ≤ 1 ∧
        (mutatesReg st r.1 → ∃ a : AuditEntry, t = [a] ∧ some a.user = sid) ∧
        (¬ mutatesReg st r.1 → t = [])) ?_ ?_ ?_ ?_ ?_
    · intro _
      exact ⟨[], by simp, by simp, fun hmu => by
        rcases hmu with h | h | h | h <;> exact absurd rfl h, fun _ => rfl⟩
    · intro _ _
      exact ⟨[], by simp, by simp, fun hmu => by
        rcases hmu with h | h | h | h <;> exact absurd rfl h, fun _ => rfl⟩
    · intro _ _ _ _
      exact ⟨[], by simp, by simp, fun hmu => by
        rcases hmu with h | h | h | h <;> exact absurd rfl h, fun _ => rfl⟩
    · intro ev hb _ _ _
      refine ⟨[⟨sid.getD "", "event_registered", now⟩], rfl, by simp, ?_, ?_⟩
      · intro _
        exact ⟨_, rfl, (getD_eq_some (fun h => hb (Or.inl h))).symm⟩
      · intro hnmu
        exact absurd (Or.inr (Or.inr (Or.inl (mset_append_ne
          st.event_registrations (eid.getD "") [sid.getD ""] (by simp))))) hnmu
    · intro ev hb _ _ _
      refine ⟨[⟨sid.getD "", "event_waitlisted", now⟩], rfl, by simp, ?_, ?_⟩
      · intro _
        exact ⟨_, rfl, (getD_eq_some (fun h => hb (Or.inl h))).symm⟩
      · intro hnmu
        exact absurd (Or.inr (Or.inr (Or.inr (mset_append_ne
          st.event_waitlists (eid.getD "") [⟨sid.getD "", now⟩] (by simp))))) hnmu

theorem C7_audit_append_only_witness :
    (∃ t, (enroll seedSt (some "s001") (some "CSE101") 0).1.audit_logs =
        seedSt.audit_logs ++ t ∧ t.length ≤ 1 ∧
      (mutatesReg seedSt (enroll seedSt (some "s001") (some "CSE101") 0).1 →
        ∃ a : AuditEntry, t = [a] ∧ some a.user = some "s001") ∧
      (¬ mutatesReg seedSt (enroll seedSt (some "s001") (some "CSE101") 0).1 →
        t = [])) ∧
    (∃ t, (event_register seedSt (some "s001") (some "EVT100") 0).1.audit_logs =
        seedSt.audit_logs ++ t ∧ t.length ≤ 1 ∧
      (mutatesReg seedSt
          (event_register seedSt (some "s001") (some "EVT100") 0).1 →
        ∃ a : AuditEntry, t = [a] ∧ some a.user = some "s001") ∧
      (¬ mutatesReg seedSt
          (event_register seedSt (some "s001") (some "EVT100") 0).1 →
        t = [])) :=
  C7_audit_append_only seedSt (some "s001") (some "CSE101") (some "EVT100") 0

/-! ## C8: persistence failure during audit -/

/-- C8 counterexample: with CSE101 free, enrolling s001 is a mutating
call that performs the persistence writes; if the write fails, the
exception propagates (neither `audit` nor `save_data` has any handler)
and the endpoint raises instead of returning the primary response. -/
theorem C8_counterexample_audit_failure_propagates :
    enrollE false seedSt (some "s001") (some "CSE101") 0 = .error () ∧
    (enroll seedSt (some "s001") (some "CSE101") 0).2 =
      .ok ⟨"enrolled", "CSE101", none⟩ :=
  ⟨rfl, rfl⟩

/-- C8 (amended): a failure of the persistence write performed while
recording a mutation is NOT swallowed: `save_data` and `audit` contain
no exception handling, so on every mutating path a failed write makes
the operation raise instead of returning its primary response; only
when the writes succeed does the operation return the same result as
the pure handler. -/
theorem C8_save_failure_propagates (st : St) (sid cc : Option String)
    (now : Nat) :
    enrollE true st sid cc now = .ok (enroll st sid cc now) ∧
    ((enroll st sid cc now).1 ≠ st →
      enrollE false st sid cc now = .error ()) := by
  by_cases hb : sid.getD "" = "" ∨ cc.getD "" = ""
  · have he : enroll st sid cc now = (st, .err 400) := by
      simp only [enroll, if_pos hb]
    exact ⟨by rw [he]; simp only [enrollE, if_pos hb],
      fun hne => absurd (by rw [he]) hne⟩
  · cases hc : mget st.courses (cc.getD "") with
    | none =>
      have he : enroll st sid cc now = (st, .err 404) := by
        simp only [enroll, if_neg hb, hc]
      exact ⟨by rw [he]; simp only [enrollE, if_neg hb, hc],
        fun hne => absurd (by rw [he]) hne⟩
    | some course =>
      by_cases hm : sid.getD "" ∈ mgetD st.enrollments (cc.getD "") []
      · have he : enroll st sid cc now =
            (st, .ok ⟨"already_enrolled", cc.getD "", none⟩) := by
          simp only [enroll, if_neg hb, hc, if_pos hm]
        exact ⟨by rw [he]; simp only [enrollE, if_neg hb, hc, if_pos hm],
          fun hne => absurd (by rw [he]) hne⟩
      · by_cases hcap :
            (mgetD st.enrollments (cc.getD "") []).length < course.capacity
        · constructor
          · simp [enrollE, enroll, if_neg hb, hc, if_neg hm, if_pos hcap,
              save_data]
          · intro _
            simp [enrollE, if_neg hb, hc, if_neg hm, if_pos hcap, save_data]
        · by_cases hw : (mgetD st.waitlists (cc.getD "") []).any
              (fun w => w.student_id == sid.getD "") = true
          · have he : enroll st sid cc now =
                (st, .ok ⟨"already_waitlisted", cc.getD "", none⟩) := by
              simp only [enroll, if_neg hb, hc, if_neg hm, if_neg hcap,
                if_pos hw]
            exact ⟨by rw [he]; simp only [enrollE, if_neg hb, hc, if_neg hm,
              if_neg hcap, if_pos hw], fun hne => absurd (by rw [he]) hne⟩
          · have hw' : ¬ ∃ x ∈ mgetD st.waitlists (cc.getD "") [],
                x.student_id = sid.getD "" := by
              simpa using hw
            constructor
            · simp [enrollE, enroll, hb, hc, hm, hcap, hw', save_data]
            · intro _
              simp [enrollE, hb, hc, hm, hcap, hw', save_data]

theorem C8_save_failure_propagates_witness :
    enrollE true seedSt (some "s002") (some "MTH101") 0 =
      .ok (enroll seedSt (some "s002") (some "MTH101") 0) ∧
    (enroll seedSt (some "s002") (some "MTH101") 0).1 ≠ seedSt ∧
    enrollE false seedSt (some "s002") (some "MTH101") 0 = .error () := by
  have h := C8_save_failure_propagates seedSt (some "s002") (some "MTH101") 0
  exact ⟨h.1, by decide, h.2 (by decide)⟩

/-! ## C10: hostel rooms never go negative -/

/-- C10 (implicit): `hostel_book` returns `full` with no state change
whenever `rooms_available <= 0`; otherwise it records the booking and
decrements `rooms_available` by exactly one (the `max 0` clamp being a
no-op for a positive count); consequently the operation preserves
non-negativity of every hostel's `rooms_available`. -/
theorem C10_rooms_available_nonneg (st : St) (sid hid : Option String)
    (bid : String) (now : Nat) :
    (∀ hostel, ¬(sid.getD "" = "" ∨ hid.getD "" = "") →
      mget st.hostels (hid.getD "") = some hostel →
      hostel.rooms_available ≤ 0 →
      hostel_book st sid hid bid now = (st, .ok ⟨"full", none⟩)) ∧
    (∀ hostel, ¬(sid.getD "" = "" ∨ hid.getD "" = "") →
      mget st.hostels (hid.getD "") = some hostel →
      0 < hostel.rooms_available →
      (hostel_book st sid hid bid now).2 = .ok ⟨"booked", some bid⟩ ∧
      mget (hostel_book st sid hid bid now).1.hostels (hid.getD "") =
        some { hostel with rooms_available := hostel.rooms_available - 1 } ∧
      mget (hostel_book st sid hid bid now).1.hostel_bookings bid =
        some ⟨sid.getD "", hid.getD ""⟩) ∧
    ((∀ k hh, mget st.hostels k = some hh → 0 ≤ hh.rooms_available) →
      ∀ k hh, mget (hostel_book st sid hid bid now).1.hostels k = some hh →
        0 ≤ hh.rooms_available) := by
  refine ⟨?_, ?_, ?_⟩
  · intro hostel hb hm hle
    simp only [hostel_book, if_neg hb, hm, if_pos hle]
  · intro hostel hb hm hpos
    have hnle : ¬ hostel.rooms_available ≤ 0 := by omega
    refine ⟨?_, ?_, ?_⟩
    · simp only [hostel_book, if_neg hb, hm, if_neg hnle]
    · simp only [hostel_book, if_neg hb, hm, if_neg hnle, auditAdd]
      rw [mget_mset, if_pos rfl, max_eq_right (by omega)]
    · simp only [hostel_book, if_neg hb, hm, if_neg hnle, auditAdd]
      rw [mget_mset, if_pos rfl]
  · intro hinv k hh hmg
    simp only [hostel_book] at hmg
    split at hmg
    · exact hinv k hh hmg
    · split at hmg
      · exact hinv k hh hmg
      · split at hmg
        · exact hinv k hh hmg
        · simp only [auditAdd] at hmg
          rw [mget_mset] at hmg
          split at hmg
          · cases Option.some.inj hmg
            exact le_max_left _ _
          · exact hinv k hh hmg

theorem C10_rooms_available_nonneg_witness :
    hostel_book
      (hostel_book (hostel_book seedSt (some "s001") (some "H1") "B1" 0).1
        (some "s002") (some "H1") "B2" 1).1
      (some "s003") (some "H1") "B3" 2 =
      ((hostel_book (hostel_book seedSt (some "s001") (some "H1") "B1" 0).1
        (some "s002") (some "H1") "B2" 1).1, .ok ⟨"full", none⟩) ∧
    (hostel_book seedSt (some "s001") (some "H1") "B1" 0).2 =
      .ok ⟨"booked", some "B1"⟩ ∧
    (0 : Int) ≤ (Hostel.mk "Maple Hostel" 4 1).rooms_available := by
  refine ⟨?_, ?_, ?_⟩
  · exact (C10_rooms_available_nonneg
      (hostel_book (hostel_book seedSt (some "s001") (some "H1") "B1" 0).1
        (some "s002") (some "H1") "B2" 1).1
      (some "s003") (some "H1") "B3" 2).1
      ⟨"Maple Hostel", 4, 0⟩ (by decide) (by decide) (by decide)
  · exact ((C10_rooms_available_nonneg seedSt (some "s001") (some "H1")
      "B1" 0).2.1 ⟨"Maple Hostel", 4, 2⟩ (by decide) (by decide)
      (by decide)).1
  · refine (C10_rooms_available_nonneg seedSt (some "s001") (some "H1")
      "B1" 0).2.2 ?_ "H1" ⟨"Maple Hostel", 4, 1⟩ (by decide)
    intro k hh h
    simp only [seedSt, mget] at h
    split at h
    · cases Option.some.inj h; decide
    · split at h
      · cases Option.some.inj h; decide
      · cases h

end UniHelpdesk
